import Mathlib

/-!
Shallow embedding of the simulation core of the `asteroids_clone` repository
(`src/physics.rs` and `src/main.rs`), together with theorems settling the
spec claims about it.  Scalar quantities (positions, radii, velocities,
elapsed seconds) are modelled as rationals; entity identifiers as naturals.
-/

/-- A body as mutated by `apply_velocity` (`src/physics.rs`, `Transform` plus
`Velocity`): 2-D position, z-orientation in radians, linear velocity with
per-axis drag, angular velocity with scalar drag.  `Transform.rotate_z`
composes rotations about the z axis, which on accumulated z-angles is
addition. -/
structure Body where
  pos : ℚ × ℚ
  rot : ℚ
  linear : ℚ × ℚ
  linear_drag : ℚ × ℚ
  angular : ℚ
  angular_drag : ℚ
deriving DecidableEq

/-- `apply_velocity` (`src/physics.rs` lines 82-92): first the velocities are
scaled by `1 - drag * dt` (componentwise for the linear part), then the
already-scaled velocities are integrated into position and orientation. -/
def apply_velocity (b : Body) (dt : ℚ) : Body :=
  let lin : ℚ × ℚ :=
    (b.linear.1 * (1 - b.linear_drag.1 * dt), b.linear.2 * (1 - b.linear_drag.2 * dt))
  let ang : ℚ := b.angular * (1 - b.angular_drag * dt)
  { b with
    linear := lin
    angular := ang
    pos := (b.pos.1 + lin.1 * dt, b.pos.2 + lin.2 * dt)
    rot := b.rot + ang * dt }

/-- Squared Euclidean norm of a body's linear velocity; comparisons of
magnitudes of velocities are equivalent to comparisons of squared norms. -/
def linSqNorm (b : Body) : ℚ :=
  b.linear.1 * b.linear.1 + b.linear.2 * b.linear.2

lemma comp_drag_le (l c : ℚ) (hc0 : 0 < c) (hc1 : c < 1) :
    (l * c) * (l * c) ≤ l * l := by
  have h : c * c < 1 := by nlinarith
  nlinarith [mul_self_nonneg l]

lemma comp_drag_lt (l c : ℚ) (hl : l ≠ 0) (hc0 : 0 < c) (hc1 : c < 1) :
    (l * c) * (l * c) < l * l := by
  have h : c * c < 1 := by nlinarith
  have hll : 0 < l * l := mul_self_pos.mpr hl
  nlinarith

/-- Claim C5: one integration step first scales the linear velocity
componentwise by `1 - linear_drag * dt` and the angular velocity by
`1 - angular_drag * dt`, and then adds the already-scaled linear velocity
times `dt` to the position and the already-scaled angular velocity times `dt`
to the orientation; in particular a body with zero velocity keeps its
position and orientation unchanged, for every `dt ≥ 0`. -/
theorem C5_apply_velocity_order (b : Body) (dt : ℚ) (_hdt : 0 ≤ dt) :
    (apply_velocity b dt =
      { pos := (b.pos.1 + b.linear.1 * (1 - b.linear_drag.1 * dt) * dt,
                b.pos.2 + b.linear.2 * (1 - b.linear_drag.2 * dt) * dt)
        rot := b.rot + b.angular * (1 - b.angular_drag * dt) * dt
        linear := (b.linear.1 * (1 - b.linear_drag.1 * dt),
                   b.linear.2 * (1 - b.linear_drag.2 * dt))
        linear_drag := b.linear_drag
        angular := b.angular * (1 - b.angular_drag * dt)
        angular_drag := b.angular_drag })
    ∧ (b.linear = (0, 0) → b.angular = 0 →
        (apply_velocity b dt).pos = b.pos ∧ (apply_velocity b dt).rot = b.rot) := by
  constructor
  · rfl
  · intro h1 h2
    have e1 : b.linear.1 = 0 := by rw [h1]
    have e2 : b.linear.2 = 0 := by rw [h1]
    constructor
    · show (b.pos.1 + b.linear.1 * (1 - b.linear_drag.1 * dt) * dt,
            b.pos.2 + b.linear.2 * (1 - b.linear_drag.2 * dt) * dt) = b.pos
      rw [e1, e2]
      simp
    · show b.rot + b.angular * (1 - b.angular_drag * dt) * dt = b.rot
      rw [h2]
      ring

/-- Witness for C5 at a concrete body and `dt = 1`. -/
theorem C5_apply_velocity_order_witness :
    (0 : ℚ) ≤ 1 ∧
      (apply_velocity ⟨(3, 4), 2, (0, 0), (1/2, 1/2), 0, 1/2⟩ 1).pos = (3, 4) :=
  ⟨by norm_num,
    ((C5_apply_velocity_order ⟨(3, 4), 2, (0, 0), (1/2, 1/2), 0, 1/2⟩ 1
      (by norm_num)).2 rfl rfl).1⟩

/-- The body used to refute claim C6 as stated: zero velocity. -/
def B0 : Body := ⟨(0, 0), 0, (0, 0), (1/2, 1/2), 0, 1/2⟩

/-- Claim C6, counterexample: for the zero-velocity body `B0` and `dt = 1`
every drag product lies strictly between 0 and 1, yet neither the linear
velocity magnitude (compared via squared norms) nor the angular velocity
magnitude strictly decreases — both stay 0. -/
theorem C6_counterexample :
    (0 < B0.linear_drag.1 * 1 ∧ B0.linear_drag.1 * 1 < 1) ∧
    (0 < B0.linear_drag.2 * 1 ∧ B0.linear_drag.2 * 1 < 1) ∧
    (0 < B0.angular_drag * 1 ∧ B0.angular_drag * 1 < 1) ∧
    ¬ linSqNorm (apply_velocity B0 1) < linSqNorm B0 ∧
    ¬ |(apply_velocity B0 1).angular| < |B0.angular| := by
  refine ⟨⟨by norm_num [B0], by norm_num [B0]⟩, ⟨by norm_num [B0], by norm_num [B0]⟩,
    ⟨by norm_num [B0], by norm_num [B0]⟩, ?_, ?_⟩
  · simp [B0, apply_velocity, linSqNorm]
  · simp [B0, apply_velocity]

/-- Claim C6, amended: whenever `0 < drag * dt < 1` (per linear component and
for the angular drag), one `apply_velocity` step never increases the linear
or angular velocity magnitude, and strictly decreases it whenever the
corresponding velocity is nonzero (the zero-velocity body keeps magnitude 0,
so strictness cannot hold unconditionally). -/
theorem C6_drag_reduces_speed (b : Body) (dt : ℚ)
    (h10 : 0 < b.linear_drag.1 * dt) (h11 : b.linear_drag.1 * dt < 1)
    (h20 : 0 < b.linear_drag.2 * dt) (h21 : b.linear_drag.2 * dt < 1)
    (h30 : 0 < b.angular_drag * dt) (h31 : b.angular_drag * dt < 1) :
    linSqNorm (apply_velocity b dt) ≤ linSqNorm b ∧
    (b.linear ≠ (0, 0) → linSqNorm (apply_velocity b dt) < linSqNorm b) ∧
    |(apply_velocity b dt).angular| ≤ |b.angular| ∧
    (b.angular ≠ 0 → |(apply_velocity b dt).angular| < |b.angular|) := by
  have hc10 : 0 < 1 - b.linear_drag.1 * dt := by linarith
  have hc11 : 1 - b.linear_drag.1 * dt < 1 := by linarith
  have hc20 : 0 < 1 - b.linear_drag.2 * dt := by linarith
  have hc21 : 1 - b.linear_drag.2 * dt < 1 := by linarith
  have hc30 : 0 < 1 - b.angular_drag * dt := by linarith
  have hc31 : 1 - b.angular_drag * dt < 1 := by linarith
  have hsq : linSqNorm (apply_velocity b dt) =
      (b.linear.1 * (1 - b.linear_drag.1 * dt)) * (b.linear.1 * (1 - b.linear_drag.1 * dt)) +
      (b.linear.2 * (1 - b.linear_drag.2 * dt)) * (b.linear.2 * (1 - b.linear_drag.2 * dt)) := rfl
  have hang : (apply_velocity b dt).angular = b.angular * (1 - b.angular_drag * dt) := rfl
  refine ⟨?_, ?_, ?_, ?_⟩
  · rw [hsq]
    exact add_le_add (comp_drag_le _ _ hc10 hc11) (comp_drag_le _ _ hc20 hc21)
  · intro hne
    have : b.linear.1 ≠ 0 ∨ b.linear.2 ≠ 0 := by
      by_contra hcon
      push_neg at hcon
      exact hne (Prod.ext hcon.1 hcon.2)
    rw [hsq]
    rcases this with h | h
    · exact add_lt_add_of_lt_of_le (comp_drag_lt _ _ h hc10 hc11)
        (comp_drag_le _ _ hc20 hc21)
    · exact add_lt_add_of_le_of_lt (comp_drag_le _ _ hc10 hc11)
        (comp_drag_lt _ _ h hc20 hc21)
  · rw [hang, abs_mul, abs_of_pos hc30]
    exact mul_le_of_le_one_right (abs_nonneg _) (le_of_lt hc31)
  · intro ha
    rw [hang, abs_mul, abs_of_pos hc30]
    exact mul_lt_of_lt_one_right (abs_pos.mpr ha) hc31

/-- Witness for the amended C6 at a concrete moving body and `dt = 1`. -/
theorem C6_drag_reduces_speed_witness :
    linSqNorm (apply_velocity ⟨(0, 0), 0, (1, 2), (1/2, 1/2), 3, 1/2⟩ 1) <
      linSqNorm ⟨(0, 0), 0, (1, 2), (1/2, 1/2), 3, 1/2⟩ :=
  (C6_drag_reduces_speed ⟨(0, 0), 0, (1, 2), (1/2, 1/2), 3, 1/2⟩ 1
    (by norm_num) (by norm_num) (by norm_num) (by norm_num)
    (by norm_num) (by norm_num)).2.1 (by decide)

/-- A collidable entity as seen by `detect_collisions` (`src/physics.rs`
lines 43-80): its `Entity` id, `Transform` translation (the z component is
always 0 for this game, so 2-D), and `CircleCollider` radius. -/
structure PhysEntity where
  id : Nat
  pos : ℚ × ℚ
  radius : ℚ
deriving DecidableEq

/-- Squared Euclidean distance between two points. -/
def sqDist (a b : ℚ × ℚ) : ℚ :=
  (a.1 - b.1) * (a.1 - b.1) + (a.2 - b.2) * (a.2 - b.2)

/-- The collision test of `src/physics.rs` line 60:
`tsf.translation.distance(tsf_b.translation) < collider.radius`, i.e. the
Euclidean distance is strictly below the radius of `a` alone.  Over the
rationals this is phrased without square roots: the distance is nonnegative,
so `dist < r` holds exactly when `0 < r` and `dist² < r²`
(see `hit_iff_sqrt_lt`). -/
def hit (a b : PhysEntity) : Bool :=
  decide (0 < a.radius) && decide (sqDist a.pos b.pos < a.radius * a.radius)

lemma sqDist_nonneg (a b : ℚ × ℚ) : 0 ≤ sqDist a b :=
  add_nonneg (mul_self_nonneg _) (mul_self_nonneg _)

/-- The square-root-free `hit` test agrees with the source's comparison of
the real Euclidean distance against the radius. -/
lemma hit_iff_sqrt_lt (a b : PhysEntity) :
    hit a b = true ↔ Real.sqrt ((sqDist a.pos b.pos : ℚ)) < (a.radius : ℚ) := by
  unfold hit
  rcases le_or_lt a.radius 0 with h | h
  · constructor
    · intro hc
      simp only [Bool.and_eq_true, decide_eq_true_eq] at hc
      exact absurd hc.1 (not_lt.mpr h)
    · intro hc
      exfalso
      have h0 : (0 : ℝ) ≤ Real.sqrt ((sqDist a.pos b.pos : ℚ)) := Real.sqrt_nonneg _
      have hr : ((a.radius : ℚ) : ℝ) ≤ 0 := by exact_mod_cast h
      linarith
  · have hsq : Real.sqrt ((sqDist a.pos b.pos : ℚ)) < (a.radius : ℚ) ↔
        ((sqDist a.pos b.pos : ℚ) : ℝ) < ((a.radius : ℚ) : ℝ) ^ 2 :=
      Real.sqrt_lt' (by exact_mod_cast h)
    have hcast : ((sqDist a.pos b.pos : ℚ) : ℝ) < ((a.radius : ℚ) : ℝ) ^ 2 ↔
        sqDist a.pos b.pos < a.radius * a.radius := by
      rw [sq]
      exact_mod_cast Iff.rfl
    simp only [Bool.and_eq_true, decide_eq_true_eq, hsq, hcast]
    exact ⟨fun hx => hx.2, fun hx => ⟨h, hx⟩⟩

/-- The `HashMap<Entity, Vec<Entity>>` of `detect_collisions`, modelled as an
association list in insertion order. -/
abbrev CollMap := List (Nat × List Nat)

/-- `HashMap::get`. -/
def mapLookup : CollMap → Nat → Option (List Nat)
  | [], _ => none
  | p :: rest, k => if p.1 = k then some p.2 else mapLookup rest k

/-- Lines 50-52: `if !collisions.contains_key(&entity) { collisions.insert(entity, vec![]) }`. -/
def mapInsertEmpty (m : CollMap) (k : Nat) : CollMap :=
  match mapLookup m k with
  | some _ => m
  | none => m ++ [(k, [])]

/-- Line 67: `collisions.get_mut(&entity).unwrap().push(ent_b)`. -/
def mapPush : CollMap → Nat → Nat → CollMap
  | [], _, _ => []
  | p :: rest, k, v => if p.1 = k then (p.1, p.2 ++ [v]) :: rest else p :: mapPush rest k v

/-- Lines 61-65: the dedup check — `ent_b`'s recorded hit list (if any)
already contains `entity`. -/
def dedupHit (m : CollMap) (b a : Nat) : Bool :=
  match mapLookup m b with
  | some l => decide (a ∈ l)
  | none => false

/-- The inner `for` loop of `detect_collisions` (lines 54-69), run for outer
entity `a` over the query's entities. -/
def innerLoop (a : PhysEntity) : CollMap → List PhysEntity → CollMap
  | m, [] => m
  | m, b :: rest =>
    if a.id = b.id then innerLoop a m rest
    else if hit a b then
      if dedupHit m b.id a.id then innerLoop a m rest
      else innerLoop a (mapPush m a.id b.id) rest
    else innerLoop a m rest

/-- The outer `for` loop of `detect_collisions` (lines 49-70). -/
def outerLoop (all : List PhysEntity) : CollMap → List PhysEntity → CollMap
  | m, [] => m
  | m, a :: rest => outerLoop all (innerLoop a (mapInsertEmpty m a.id) all) rest

/-- Lines 72-79: flatten the map into the batch of `CollisionEvent`s. -/
def collisionEvents (m : CollMap) : List (Nat × Nat) :=
  m.flatMap (fun p => p.2.map (fun b => (p.1, b)))

/-- `detect_collisions` (`src/physics.rs` lines 43-80): the list of collision
events emitted for one tick, given the query's entities in iteration order. -/
def detect_collisions (ents : List PhysEntity) : List (Nat × Nat) :=
  collisionEvents (outerLoop ents [] ents)

lemma mapLookup_append_single (m : CollMap) (k j : Nat) (l : List Nat) :
    mapLookup (m ++ [(k, l)]) j =
      match mapLookup m j with
      | some l0 => some l0
      | none => if k = j then some l else none := by
  induction m with
  | nil => simp [mapLookup]
  | cons p rest ih =>
    by_cases hp : p.1 = j
    · simp [mapLookup, hp]
    · simp [mapLookup, hp, ih]

lemma mapLookup_mapPush (m : CollMap) (k v j : Nat) :
    mapLookup (mapPush m k v) j =
      if j = k then (mapLookup m k).map (fun l => l ++ [v]) else mapLookup m j := by
  induction m with
  | nil => simp [mapPush, mapLookup]
  | cons p rest ih =>
    by_cases hp : p.1 = k <;> by_cases hpj : p.1 = j
    · have hj : j = k := by rw [← hpj, hp]
      simp [mapPush, mapLookup, hp, hpj, hj]
    · have hj : ¬ j = k := fun h => hpj (by rw [hp, h])
      have hj' : ¬ k = j := fun h => hj h.symm
      simp [mapPush, mapLookup, hp, hpj, hj, hj']
    · have hj : ¬ j = k := fun h => hp (by rw [hpj, h])
      simp [mapPush, mapLookup, hp, hpj, hj]
    · simp [mapPush, mapLookup, hp, hpj, ih]

lemma keys_mapPush (m : CollMap) (k v : Nat) :
    (mapPush m k v).map Prod.fst = m.map Prod.fst := by
  induction m with
  | nil => rfl
  | cons p rest ih =>
    by_cases hp : p.1 = k
    · simp [mapPush, hp]
    · simp [mapPush, hp, ih]

lemma mapLookup_eq_none_iff (m : CollMap) (k : Nat) :
    mapLookup m k = none ↔ k ∉ m.map Prod.fst := by
  induction m with
  | nil => simp [mapLookup]
  | cons p rest ih =>
    by_cases hp : p.1 = k
    · simp [mapLookup, hp]
    · rw [mapLookup, if_neg hp, ih]
      simp only [List.map_cons, List.mem_cons, not_or]
      have hkp : ¬ k = p.1 := fun h => hp h.symm
      tauto

lemma mapLookup_of_mem_nodup {m : CollMap} (hnd : (m.map Prod.fst).Nodup)
    {p : Nat × List Nat} (hp : p ∈ m) : mapLookup m p.1 = some p.2 := by
  induction m with
  | nil => exact absurd hp (List.not_mem_nil p)
  | cons q rest ih =>
    rcases List.mem_cons.mp hp with hq | hq
    · subst hq
      simp [mapLookup]
    · simp only [List.map_cons, List.nodup_cons] at hnd
      have hq1 : ¬ q.1 = p.1 := by
        intro he
        have hm : p.1 ∈ rest.map Prod.fst := List.mem_map.mpr ⟨p, hq, rfl⟩
        rw [← he] at hm
        exact hnd.1 hm
      simp only [mapLookup, if_neg hq1]
      exact ih hnd.2 hq

/-- No two recorded hit lists mention each other: if `y` is recorded in `x`'s
list, then `x` is not recorded in `y`'s (taking `x = y`, no list mentions its
own key). -/
def NoMutual (m : CollMap) : Prop :=
  ∀ x lx y ly, mapLookup m x = some lx → mapLookup m y = some ly → y ∈ lx → x ∉ ly

/-- The invariant `detect_collisions` maintains over its hash map: keys are
distinct (entries are only inserted when absent) and no mutual recording. -/
def GoodMap (m : CollMap) : Prop :=
  (m.map Prod.fst).Nodup ∧ NoMutual m

lemma goodMap_nil : GoodMap [] := by
  constructor
  · exact List.nodup_nil
  · intro x lx y ly hx
    simp [mapLookup] at hx

lemma goodMap_insertEmpty {m : CollMap} (h : GoodMap m) (k : Nat) :
    GoodMap (mapInsertEmpty m k) := by
  unfold mapInsertEmpty
  cases hl : mapLookup m k with
  | some l => exact h
  | none =>
    obtain ⟨hnd, hnm⟩ := h
    have hk : k ∉ m.map Prod.fst := (mapLookup_eq_none_iff m k).mp hl
    constructor
    · rw [List.map_append]
      simp [List.nodup_append, hnd, hk]
    · intro x lx y ly hx hy hyx
      rw [mapLookup_append_single] at hx hy
      cases hmx : mapLookup m x with
      | none =>
        rw [hmx] at hx
        simp only at hx
        split at hx
        · cases hx
          exact absurd hyx (List.not_mem_nil y)
        · cases hx
      | some lx0 =>
        rw [hmx] at hx
        simp only at hx
        cases hx
        cases hmy : mapLookup m y with
        | none =>
          rw [hmy] at hy
          simp only at hy
          split at hy
          · cases hy
            exact List.not_mem_nil x
          · cases hy
        | some ly0 =>
          rw [hmy] at hy
          simp only at hy
          cases hy
          exact hnm _ _ _ _ hmx hmy hyx

lemma dedupHit_false_spec {m : CollMap} {b a : Nat} (h : dedupHit m b a = false) :
    ∀ l, mapLookup m b = some l → a ∉ l := by
  intro l hl hal
  rw [dedupHit, hl] at h
  simp [hal] at h

lemma noMutual_mapPush {m : CollMap} (hnm : NoMutual m) {a b : Nat}
    (hab : a ≠ b) (hded : dedupHit m b a = false) :
    NoMutual (mapPush m a b) := by
  have hded' := dedupHit_false_spec hded
  intro x lx y ly hx hy hyx
  rw [mapLookup_mapPush] at hx hy
  by_cases hxa : x = a
  · subst hxa
    rw [if_pos rfl] at hx
    cases hma : mapLookup m x with
    | none => rw [hma] at hx; cases hx
    | some lx0 =>
      rw [hma] at hx
      have hx' : some (lx0 ++ [b]) = some lx := hx
      injection hx' with he
      subst he
      by_cases hyb : y = b
      · subst hyb
        have hyx' : ¬ y = x := fun h => hab h.symm
        rw [if_neg (fun h : y = x => hab h.symm)] at hy
        exact hded' ly hy
      · have hy0 : y ∈ lx0 := by
          rcases List.mem_append.mp hyx with h0 | h0
          · exact h0
          · exact absurd (List.mem_singleton.mp h0) hyb
        by_cases hya : y = x
        · subst hya
          exact absurd hy0 (hnm y lx0 y lx0 hma hma hy0)
        · rw [if_neg hya] at hy
          exact hnm x lx0 y ly hma hy hy0
  · rw [if_neg hxa] at hx
    by_cases hya : y = a
    · subst hya
      rw [if_pos rfl] at hy
      cases hma : mapLookup m y with
      | none => rw [hma] at hy; cases hy
      | some ly0 =>
        rw [hma] at hy
        have hy' : some (ly0 ++ [b]) = some ly := hy
        injection hy' with he
        subst he
        have hx0 : x ∉ ly0 := hnm x lx y ly0 hx hma hyx
        have hxb : x ≠ b := by
          intro he
          subst he
          exact hded' lx hx hyx
        simp only [List.mem_append, List.mem_singleton]
        rintro (hc | hc)
        · exact hx0 hc
        · exact hxb hc
    · rw [if_neg hya] at hy
      exact hnm x lx y ly hx hy hyx

lemma goodMap_mapPush {m : CollMap} (h : GoodMap m) {a b : Nat}
    (hab : a ≠ b) (hded : dedupHit m b a = false) : GoodMap (mapPush m a b) :=
  ⟨by rw [keys_mapPush]; exact h.1, noMutual_mapPush h.2 hab hded⟩

lemma goodMap_innerLoop (a : PhysEntity) (bs : List PhysEntity) :
    ∀ m, GoodMap m → GoodMap (innerLoop a m bs) := by
  induction bs with
  | nil => exact fun m h => h
  | cons b rest ih =>
    intro m h
    simp only [innerLoop]
    split_ifs with h1 h2 h3
    · exact ih m h
    · exact ih m h
    · exact ih _ (goodMap_mapPush h h1 (Bool.eq_false_iff.mpr h3))
    · exact ih m h

lemma goodMap_outerLoop (all rem : List PhysEntity) :
    ∀ m, GoodMap m → GoodMap (outerLoop all m rem) := by
  induction rem with
  | nil => exact fun m h => h
  | cons a rest ih =>
    intro m h
    simp only [outerLoop]
    exact ih _ (goodMap_innerLoop a all _ (goodMap_insertEmpty h a.id))

lemma mem_collisionEvents {m : CollMap} {x y : Nat} :
    (x, y) ∈ collisionEvents m ↔ ∃ l, (x, l) ∈ m ∧ y ∈ l := by
  constructor
  · intro hmem
    rcases List.mem_flatMap.mp hmem with ⟨p, hp, hin⟩
    rcases List.mem_map.mp hin with ⟨b, hb, heq⟩
    obtain ⟨h1, h2⟩ := Prod.mk.injEq _ _ _ _ ▸ heq
    subst h1
    subst h2
    exact ⟨p.2, by rw [Prod.mk.eta]; exact hp, hb⟩
  · rintro ⟨l, hl, hy⟩
    exact List.mem_flatMap.mpr ⟨(x, l), hl, List.mem_map.mpr ⟨y, hy, rfl⟩⟩

lemma detect_collisions_no_mutual (ents : List PhysEntity) (x y : Nat)
    (h : (x, y) ∈ detect_collisions ents) : (y, x) ∉ detect_collisions ents := by
  intro hyx
  have hg : GoodMap (outerLoop ents [] ents) := goodMap_outerLoop ents ents [] goodMap_nil
  rcases mem_collisionEvents.mp h with ⟨lx, hlx, hylx⟩
  rcases mem_collisionEvents.mp hyx with ⟨ly, hly, hxly⟩
  have h1 : mapLookup (outerLoop ents [] ents) x = some lx :=
    mapLookup_of_mem_nodup hg.1 hlx
  have h2 : mapLookup (outerLoop ents [] ents) y = some ly :=
    mapLookup_of_mem_nodup hg.1 hly
  exact hg.2 x lx y ly h1 h2 hylx hxly

/-- Every id/hit-list entry in the map was put there by a passed `hit` test:
there are source entities with the right ids, distinct, whose (asymmetric)
threshold test succeeded. -/
def SoundMap (ents : List PhysEntity) (m : CollMap) : Prop :=
  ∀ p ∈ m, ∀ y ∈ p.2, ∃ a b, a ∈ ents ∧ b ∈ ents ∧ a.id = p.1 ∧ b.id = y ∧
    a.id ≠ b.id ∧ hit a b = true

lemma soundMap_insertEmpty {ents : List PhysEntity} {m : CollMap}
    (h : SoundMap ents m) (k : Nat) : SoundMap ents (mapInsertEmpty m k) := by
  unfold mapInsertEmpty
  cases mapLookup m k with
  | some l => exact h
  | none =>
    intro p hp
    rcases List.mem_append.mp hp with hp | hp
    · exact h p hp
    · rw [List.mem_singleton] at hp
      subst hp
      intro y hy
      exact absurd hy (List.not_mem_nil y)

lemma mem_mapPush {m : CollMap} {k v : Nat} {p : Nat × List Nat}
    (hp : p ∈ mapPush m k v) :
    p ∈ m ∨ ∃ l, (k, l) ∈ m ∧ p = (k, l ++ [v]) := by
  induction m with
  | nil => exact absurd hp (by rw [mapPush]; exact List.not_mem_nil p)
  | cons q rest ih =>
    by_cases hq : q.1 = k
    · rw [mapPush, if_pos hq] at hp
      rcases List.mem_cons.mp hp with hp | hp
      · right
        refine ⟨q.2, ?_, by rw [hp, hq]⟩
        have hqe : (k, q.2) = q := by rw [← hq, Prod.mk.eta]
        rw [hqe]
        exact List.mem_cons_self q rest
      · exact Or.inl (List.mem_cons_of_mem q hp)
    · rw [mapPush, if_neg hq] at hp
      rcases List.mem_cons.mp hp with hp | hp
      · exact Or.inl (hp ▸ List.mem_cons_self q rest)
      · rcases ih hp with hin | ⟨l, hl, he⟩
        · exact Or.inl (List.mem_cons_of_mem q hin)
        · exact Or.inr ⟨l, List.mem_cons_of_mem q hl, he⟩

lemma soundMap_mapPush {ents : List PhysEntity} {m : CollMap} (h : SoundMap ents m)
    {a b : PhysEntity} (ha : a ∈ ents) (hb : b ∈ ents) (hne : a.id ≠ b.id)
    (hhit : hit a b = true) : SoundMap ents (mapPush m a.id b.id) := by
  intro p hp y hy
  rcases mem_mapPush hp with hp | ⟨l, hl, hpe⟩
  · exact h p hp y hy
  · subst hpe
    rcases List.mem_append.mp hy with hy | hy
    · exact h (a.id, l) hl y hy
    · rw [List.mem_singleton] at hy
      subst hy
      exact ⟨a, b, ha, hb, rfl, rfl, hne, hhit⟩

lemma soundMap_innerLoop (ents : List PhysEntity) (a : PhysEntity) (ha : a ∈ ents)
    (bs : List PhysEntity) (hsub : ∀ b ∈ bs, b ∈ ents) :
    ∀ m, SoundMap ents m → SoundMap ents (innerLoop a m bs) := by
  induction bs with
  | nil => exact fun m h => h
  | cons b rest ih =>
    intro m h
    have hsub' : ∀ x ∈ rest, x ∈ ents := fun x hx => hsub x (List.mem_cons_of_mem b hx)
    have hbmem : b ∈ ents := hsub b (List.mem_cons_self b rest)
    simp only [innerLoop]
    split_ifs with h1 h2 h3
    · exact ih hsub' m h
    · exact ih hsub' m h
    · exact ih hsub' _ (soundMap_mapPush h ha hbmem h1 h2)
    · exact ih hsub' m h

lemma soundMap_outerLoop (ents : List PhysEntity) (rem : List PhysEntity)
    (hsub : ∀ a ∈ rem, a ∈ ents) :
    ∀ m, SoundMap ents m → SoundMap ents (outerLoop ents m rem) := by
  induction rem with
  | nil => exact fun m h => h
  | cons a rest ih =>
    intro m h
    have hsub' : ∀ x ∈ rest, x ∈ ents := fun x hx => hsub x (List.mem_cons_of_mem a hx)
    simp only [outerLoop]
    exact ih hsub' _
      (soundMap_innerLoop ents a (hsub a (List.mem_cons_self a rest)) ents (fun b hb => hb) _
        (soundMap_insertEmpty h a.id))

lemma detect_collisions_sound {ents : List PhysEntity} {x y : Nat}
    (h : (x, y) ∈ detect_collisions ents) :
    ∃ a b, a ∈ ents ∧ b ∈ ents ∧ a.id = x ∧ b.id = y ∧ a.id ≠ b.id ∧ hit a b = true := by
  have hs : SoundMap ents (outerLoop ents [] ents) :=
    soundMap_outerLoop ents ents (fun a hx => hx) []
      (fun p hp => absurd hp (List.not_mem_nil p))
  rcases mem_collisionEvents.mp h with ⟨l, hl, hyl⟩
  exact hs (x, l) hl y hyl

/-- On a two-entity world traversed with `A` first, the ordered pair
`(A, B)` is emitted exactly when the distance is below `A`'s radius — for
every value of `B`'s radius, which never enters the test. -/
lemma detect_pair_left (A B : PhysEntity) (hne : A.id ≠ B.id) :
    (A.id, B.id) ∈ detect_collisions [A, B] ↔ hit A B = true := by
  have hBA : ¬ B.id = A.id := fun h => hne h.symm
  rcases Bool.eq_false_or_eq_true (hit A B) with hAB | hAB <;>
    rcases Bool.eq_false_or_eq_true (hit B A) with hBA2 | hBA2 <;>
      simp [detect_collisions, outerLoop, innerLoop, mapInsertEmpty, mapLookup, mapPush,
        dedupHit, collisionEvents, hne, hBA, hAB, hBA2, Prod.ext_iff]

/-- Claim C1: a candidate hit from `A`'s perspective is governed by `A`'s
radius alone.  First conjunct: every emitted pair `(x, y)` comes from source
entities `a, b` with those ids whose test `hit a b` passed — and `hit a b`
reads only `a.radius`, never `b.radius`.  Second conjunct: on a two-entity
world `[A, B]`, the pair `(A, B)` is emitted exactly when the distance between
the positions is strictly below `A`'s radius, whatever `B`'s radius is. -/
theorem C1_candidate_threshold_is_first_radius :
    (∀ (ents : List PhysEntity) (x y : Nat), (x, y) ∈ detect_collisions ents →
      ∃ a b, a ∈ ents ∧ b ∈ ents ∧ a.id = x ∧ b.id = y ∧ a.id ≠ b.id ∧ hit a b = true) ∧
    (∀ A B : PhysEntity, A.id ≠ B.id →
      ((A.id, B.id) ∈ detect_collisions [A, B] ↔ hit A B = true)) :=
  ⟨fun _ _ _ h => detect_collisions_sound h, detect_pair_left⟩

/-- Witness for C1 at two concrete entities: the first has radius 5 and its
distance to the second (radius 1) is 1, so `(0, 1)` is emitted. -/
theorem C1_candidate_threshold_is_first_radius_witness :
    ((0 : Nat), (1 : Nat)) ∈ detect_collisions [⟨0, (0, 0), 5⟩, ⟨1, (1, 0), 1⟩] ∧
    hit ⟨0, (0, 0), 5⟩ ⟨1, (1, 0), 1⟩ = true := by
  have hh : hit ⟨0, (0, 0), 5⟩ (⟨1, (1, 0), 1⟩ : PhysEntity) = true := by
    simp only [hit, Bool.and_eq_true, decide_eq_true_eq]
    norm_num [sqDist]
  exact ⟨(C1_candidate_threshold_is_first_radius.2 ⟨0, (0, 0), 5⟩ ⟨1, (1, 0), 1⟩
      (by decide)).mpr hh, hh⟩

/-- Claim C2: `detect_collisions` never emits both orderings of a pair in one
tick: whenever `(x, y)` is in the output, `(y, x)` is not (for any input
list of entities whatsoever). -/
theorem C2_no_double_report (ents : List PhysEntity) (x y : Nat)
    (h : (x, y) ∈ detect_collisions ents) : (y, x) ∉ detect_collisions ents :=
  detect_collisions_no_mutual ents x y h

/-- Witness for C2 with two entities whose mutual distance (1) is under both
radii (5 and 5): only the first traversal order is reported. -/
theorem C2_no_double_report_witness :
    ((0 : Nat), (1 : Nat)) ∈ detect_collisions [⟨0, (0, 0), 5⟩, ⟨1, (1, 0), 5⟩] ∧
    ((1 : Nat), (0 : Nat)) ∉ detect_collisions [⟨0, (0, 0), 5⟩, ⟨1, (1, 0), 5⟩] := by
  have hmem : ((0 : Nat), (1 : Nat)) ∈ detect_collisions [⟨0, (0, 0), 5⟩, ⟨1, (1, 0), 5⟩] :=
    (detect_pair_left ⟨0, (0, 0), 5⟩ ⟨1, (1, 0), 5⟩ (by decide)).mpr (by
      simp only [hit, Bool.and_eq_true, decide_eq_true_eq]
      norm_num [sqDist])
  exact ⟨hmem, C2_no_double_report [⟨0, (0, 0), 5⟩, ⟨1, (1, 0), 5⟩] 0 1 hmem⟩

/-- An entity of the game world as seen by `handle_collisions`
(`src/main.rs`): its id and which role/marker components it carries
(`PlayerShip`, `Asteroid`, `LaserShot`, `GameCleanup`, `Camera2d`). -/
structure GEnt where
  id : Nat
  ship : Bool
  asteroid : Bool
  laser : Bool
  cleanup : Bool
  camera : Bool
deriving DecidableEq

/-- The game state touched by `handle_collisions`: the live entities, the
value of the `GameStats.score` register (a `u32` in the source, so always
below `2^32`; its `+= 10` increments wrap modulo `2^32` on overflow, the
release-build semantics — a debug build would panic there instead), and the
next fresh entity id the spawner would hand out. -/
structure World where
  ents : List GEnt
  score : Nat
  nextId : Nat
deriving DecidableEq

/-- `Query<Entity, With<LaserShot>>` snapshot. -/
def laserIds (w : World) : List Nat := (w.ents.filter (fun e => e.laser)).map GEnt.id

/-- `Query<Entity, With<Asteroid>>` snapshot. -/
def asteroidIds (w : World) : List Nat := (w.ents.filter (fun e => e.asteroid)).map GEnt.id

/-- `Single<Entity, With<PlayerShip>>`: the system only runs when this list
is a singleton. -/
def shipIds (w : World) : List Nat := (w.ents.filter (fun e => e.ship)).map GEnt.id

/-- `Query<Entity, With<GameCleanup>>` snapshot. -/
def cleanupIds (w : World) : List Nat := (w.ents.filter (fun e => e.cleanup)).map GEnt.id

/-- The deferred `Commands` recorded during `handle_collisions`: despawns and
`run_system_cached(setup_scene)`; Bevy applies them in order after the
system body finishes. -/
inductive GameCmd where
  | despawn : Nat → GameCmd
  | runSetup : GameCmd
deriving DecidableEq

/-- `setup_scene` (`src/main.rs` lines 75-86): spawns a camera entity
(`Camera2d, GameCleanup`) and the player ship (`PlayerShip, GameCleanup`,
collider, sprite), both with fresh ids. -/
def setup_scene (w : World) : World :=
  { w with
    ents := w.ents ++
      [{ id := w.nextId, ship := false, asteroid := false, laser := false,
         cleanup := true, camera := true },
       { id := w.nextId + 1, ship := true, asteroid := false, laser := false,
         cleanup := true, camera := false }]
    nextId := w.nextId + 2 }

/-- `Commands::entity(..).try_despawn()`: removes the entity with that id;
a no-op when no such entity exists. -/
def try_despawn (w : World) (i : Nat) : World :=
  { w with ents := w.ents.filter (fun e => e.id != i) }

def applyCmd (w : World) : GameCmd → World
  | GameCmd.despawn i => try_despawn w i
  | GameCmd.runSetup => setup_scene w

def applyCmds (w : World) (cs : List GameCmd) : World := cs.foldl applyCmd w

/-- The body of the `for collision in collisions.read()` loop of
`handle_collisions` (`src/main.rs` lines 183-218) for one collision pair
`c`, against the query snapshots `L` (lasers), `R` (asteroids), `C`
(cleanup-tagged) and the singular ship id `s`.  Returns the commands it
records together with the `destroyed_roid` flag — the pair scores iff the
flag is set. -/
def handle_one (L R C : List Nat) (s : Nat) (c : Nat × Nat) : List GameCmd × Bool :=
  if (c.1 ∈ L ∧ c.2 ∈ R) ∨ (c.2 ∈ L ∧ c.1 ∈ R) then
    ((if c.1 ∈ L ∧ c.2 ∈ R then [GameCmd.despawn c.1, GameCmd.despawn c.2] else []) ++
     (if c.2 ∈ L ∧ c.1 ∈ R then [GameCmd.despawn c.2, GameCmd.despawn c.1] else []), true)
  else if (c.1 = s ∨ c.2 = s) ∧ (c.2 ∈ R ∨ c.1 ∈ R) then
    (C.map GameCmd.despawn ++ [GameCmd.runSetup], false)
  else ([], false)

/-- The loop of `handle_collisions` over the whole batch of pairs followed by
command application: query snapshots are taken once at system start, each
pair with `destroyed_roid` set performs `score += 10` on the `u32` register
during the loop (wrapping add modulo `2^32`; pairs that do not score leave
the register untouched), and all recorded commands apply afterwards in
order. -/
def run_rules (w : World) (s : Nat) (pairs : List (Nat × Nat)) : World :=
  let step := pairs.foldl
    (fun acc c =>
      (acc.1 ++ (handle_one (laserIds w) (asteroidIds w) (cleanupIds w) s c).1,
       if (handle_one (laserIds w) (asteroidIds w) (cleanupIds w) s c).2
       then (acc.2 + 10) % 2 ^ 32 else acc.2))
    ([], w.score)
  applyCmds { w with score := step.2 } step.1

/-- `handle_collisions` (`src/main.rs` lines 174-219) for one tick's batch of
collision pairs.  The `Single<.., With<PlayerShip>>` parameter makes Bevy
skip the system unless exactly one ship exists. -/
def handle_collisions (w : World) (pairs : List (Nat × Nat)) : World :=
  match shipIds w with
  | [s] => run_rules w s pairs
  | _ => w

lemma applyCmd_score (w : World) (c : GameCmd) : (applyCmd w c).score = w.score := by
  cases c <;> rfl

lemma applyCmds_score (cs : List GameCmd) : ∀ w : World, (applyCmds w cs).score = w.score := by
  induction cs with
  | nil => intro w; rfl
  | cons c rest ih =>
    intro w
    have h : applyCmds w (c :: rest) = applyCmds (applyCmd w c) rest := rfl
    rw [h, ih, applyCmd_score]

lemma filter_despawn_comm (l : List GEnt) (a b : Nat) :
    l.filter (fun e => e.id != b && e.id != a) = l.filter (fun e => e.id != a && e.id != b) := by
  apply List.filter_congr
  intro e he
  cases h1 : e.id == a <;> cases h2 : e.id == b <;> simp [bne, h1, h2]

lemma applyCmds_two_despawns (w : World) (a b : Nat) :
    applyCmds w [GameCmd.despawn a, GameCmd.despawn b] =
      { w with ents := w.ents.filter (fun e => e.id != a && e.id != b) } := by
  show { w with ents := ((w.ents.filter (fun e : GEnt => e.id != a)).filter (fun e : GEnt => e.id != b)) } = _
  congr 1
  rw [List.filter_filter]
  apply List.filter_congr
  intro e he
  cases h1 : e.id == a <;> cases h2 : e.id == b <;> simp [bne, h1, h2]

lemma applyCmds_four_despawns (w : World) (a b : Nat) :
    applyCmds w [GameCmd.despawn a, GameCmd.despawn b,
                 GameCmd.despawn b, GameCmd.despawn a] =
      { w with ents := w.ents.filter (fun e => e.id != a && e.id != b) } := by
  show { w with ents := ((((w.ents.filter (fun e : GEnt => e.id != a)).filter (fun e : GEnt => e.id != b)).filter (fun e : GEnt => e.id != b)).filter (fun e : GEnt => e.id != a)) } = _
  congr 1
  rw [List.filter_filter, List.filter_filter, List.filter_filter]
  apply List.filter_congr
  intro e he
  cases h1 : e.id == a <;> cases h2 : e.id == b <;> simp [bne, h1, h2]

lemma applyCmds_append (w : World) (cs ds : List GameCmd) :
    applyCmds w (cs ++ ds) = applyCmds (applyCmds w cs) ds := by
  simp [applyCmds, List.foldl_append]

lemma applyCmds_despawn_list (ids : List Nat) :
    ∀ w : World, applyCmds w (ids.map GameCmd.despawn) =
      { w with ents := w.ents.filter (fun e => !(ids.contains e.id)) } := by
  induction ids with
  | nil =>
    intro w
    show w = _
    have h : (fun (e : GEnt) => !(([] : List Nat).contains e.id)) = fun e => true := by
      funext e
      rfl
    rw [h, List.filter_true]
  | cons i rest ih =>
    intro w
    have h : applyCmds w ((i :: rest).map GameCmd.despawn) =
        applyCmds (try_despawn w i) (rest.map GameCmd.despawn) := rfl
    rw [h, ih]
    show { w with ents := ((w.ents.filter (fun e : GEnt => e.id != i)).filter (fun e : GEnt => !(rest.contains e.id))) } = _
    congr 1
    rw [List.filter_filter]
    apply List.filter_congr
    intro e he
    have hd : (e.id == i) = decide (e.id = i) := by
      cases he2 : e.id == i
      · simp [beq_eq_false_iff_ne.mp he2]
      · simp [beq_iff_eq.mp he2]
    simp [List.contains_cons, Bool.not_or, bne, hd, Bool.and_comm]

/-- `handle_one` on an explicit pair. -/
lemma handle_one_eval (L R C : List Nat) (s a b : Nat) :
    handle_one L R C s (a, b) =
      (if (a ∈ L ∧ b ∈ R) ∨ (b ∈ L ∧ a ∈ R) then
        ((if a ∈ L ∧ b ∈ R then [GameCmd.despawn a, GameCmd.despawn b] else []) ++
         (if b ∈ L ∧ a ∈ R then [GameCmd.despawn b, GameCmd.despawn a] else []), true)
      else if (a = s ∨ b = s) ∧ (b ∈ R ∨ a ∈ R) then
        (C.map GameCmd.despawn ++ [GameCmd.runSetup], false)
      else ([], false)) := rfl

/-- `run_rules` on a single-pair batch. -/
lemma run_rules_single (w : World) (s a b : Nat) :
    run_rules w s [(a, b)] =
      applyCmds
        { w with score :=
            if (handle_one (laserIds w) (asteroidIds w) (cleanupIds w) s (a, b)).2
            then (w.score + 10) % 2 ^ 32 else w.score }
        (handle_one (laserIds w) (asteroidIds w) (cleanupIds w) s (a, b)).1 := by
  simp [run_rules]

/-- Claim C3: a collision pair with a `LaserShot` (projectile) on one side
and an `Asteroid` on the other — in either order — makes `handle_collisions`
despawn exactly those two entities, perform the single `score += 10` (one
`u32` increment of exactly 10, i.e. `(score + 10) % 2^32`, which equals
`score + 10` whenever that sum is representable — as it is at every score
reachable in play), and skip the ship–asteroid rule for that pair (no scene
reset, no other entity touched): the resulting entity list is the old one
minus the two ids, and nothing is spawned. -/
theorem C3_projectile_asteroid_rule (w : World) (s a b : Nat)
    (hs : shipIds w = [s])
    (h : (a ∈ laserIds w ∧ b ∈ asteroidIds w) ∨ (b ∈ laserIds w ∧ a ∈ asteroidIds w)) :
    (handle_collisions w [(a, b)]).ents =
      w.ents.filter (fun e => e.id != a && e.id != b) ∧
    (handle_collisions w [(a, b)]).score = (w.score + 10) % 2 ^ 32 ∧
    (w.score + 10 < 2 ^ 32 → (handle_collisions w [(a, b)]).score = w.score + 10) := by
  have hred : handle_collisions w [(a, b)] = run_rules w s [(a, b)] := by
    simp only [handle_collisions, hs]
  rcases h with ⟨h1, h2⟩ | ⟨h1, h2⟩
  · by_cases hbwd : b ∈ laserIds w ∧ a ∈ asteroidIds w
    · have hone : handle_one (laserIds w) (asteroidIds w) (cleanupIds w) s (a, b) =
          ([GameCmd.despawn a, GameCmd.despawn b] ++
           [GameCmd.despawn b, GameCmd.despawn a], true) := by
        rw [handle_one_eval, if_pos (Or.inl ⟨h1, h2⟩), if_pos ⟨h1, h2⟩, if_pos hbwd]
      rw [hred, run_rules_single, hone]
      show (applyCmds { w with score := (w.score + 10) % 2 ^ 32 }
        [GameCmd.despawn a, GameCmd.despawn b, GameCmd.despawn b, GameCmd.despawn a]).ents
          = _ ∧ _ ∧ _
      rw [applyCmds_four_despawns]
      exact ⟨rfl, rfl, fun hlt => Nat.mod_eq_of_lt hlt⟩
    · have hone : handle_one (laserIds w) (asteroidIds w) (cleanupIds w) s (a, b) =
          ([GameCmd.despawn a, GameCmd.despawn b] ++ [], true) := by
        rw [handle_one_eval, if_pos (Or.inl ⟨h1, h2⟩), if_pos ⟨h1, h2⟩, if_neg hbwd]
      rw [hred, run_rules_single, hone]
      show (applyCmds { w with score := (w.score + 10) % 2 ^ 32 }
        [GameCmd.despawn a, GameCmd.despawn b]).ents = _ ∧ _ ∧ _
      rw [applyCmds_two_despawns]
      exact ⟨rfl, rfl, fun hlt => Nat.mod_eq_of_lt hlt⟩
  · by_cases hfwd : a ∈ laserIds w ∧ b ∈ asteroidIds w
    · have hone : handle_one (laserIds w) (asteroidIds w) (cleanupIds w) s (a, b) =
          ([GameCmd.despawn a, GameCmd.despawn b] ++
           [GameCmd.despawn b, GameCmd.despawn a], true) := by
        rw [handle_one_eval, if_pos (Or.inr ⟨h1, h2⟩), if_pos hfwd, if_pos ⟨h1, h2⟩]
      rw [hred, run_rules_single, hone]
      show (applyCmds { w with score := (w.score + 10) % 2 ^ 32 }
        [GameCmd.despawn a, GameCmd.despawn b, GameCmd.despawn b, GameCmd.despawn a]).ents
          = _ ∧ _ ∧ _
      rw [applyCmds_four_despawns]
      exact ⟨rfl, rfl, fun hlt => Nat.mod_eq_of_lt hlt⟩
    · have hone : handle_one (laserIds w) (asteroidIds w) (cleanupIds w) s (a, b) =
          ([] ++ [GameCmd.despawn b, GameCmd.despawn a], true) := by
        rw [handle_one_eval, if_pos (Or.inr ⟨h1, h2⟩), if_neg hfwd, if_pos ⟨h1, h2⟩]
      rw [hred, run_rules_single, hone]
      show (applyCmds { w with score := (w.score + 10) % 2 ^ 32 }
        [GameCmd.despawn b, GameCmd.despawn a]).ents = _ ∧ _ ∧ _
      rw [applyCmds_two_despawns, filter_despawn_comm]
      exact ⟨rfl, rfl, fun hlt => Nat.mod_eq_of_lt hlt⟩

/-- A concrete world for the witnesses: ship 0, laser 1, asteroid 2, all
cleanup-tagged. -/
def W1 : World :=
  ⟨[⟨0, true, false, false, true, false⟩,
    ⟨1, false, false, true, true, false⟩,
    ⟨2, false, true, false, true, false⟩], 7, 3⟩

/-- Witness for C3: in `W1` the laser 1 and asteroid 2 collide; both vanish
and the score goes from 7 to 17. -/
theorem C3_projectile_asteroid_rule_witness :
    shipIds W1 = [0] ∧
    ((1 : Nat) ∈ laserIds W1 ∧ (2 : Nat) ∈ asteroidIds W1) ∧
    (handle_collisions W1 [(1, 2)]).ents =
      W1.ents.filter (fun e => e.id != 1 && e.id != 2) ∧
    (handle_collisions W1 [(1, 2)]).score = (W1.score + 10) % 2 ^ 32 ∧
    (handle_collisions W1 [(1, 2)]).score = W1.score + 10 := by
  refine ⟨by decide, ⟨by decide, by decide⟩, ?_, ?_, ?_⟩
  · exact (C3_projectile_asteroid_rule W1 0 1 2 (by decide)
      (Or.inl ⟨by decide, by decide⟩)).1
  · exact (C3_projectile_asteroid_rule W1 0 1 2 (by decide)
      (Or.inl ⟨by decide, by decide⟩)).2.1
  · exact (C3_projectile_asteroid_rule W1 0 1 2 (by decide)
      (Or.inl ⟨by decide, by decide⟩)).2.2 (by decide)

/-- The world refuting claim C4's final clause: entity 0 is the ship and is
also (pathologically) asteroid-tagged; entity 1 carries no role tag. -/
def W0 : World :=
  ⟨[⟨0, true, true, false, true, false⟩,
    ⟨1, false, false, false, false, false⟩], 0, 2⟩

/-- Claim C4, counterexample: in `W0` the pair `(0, 1)` matches neither rule
as the claim states them — no projectile–asteroid match, and it is not the
case that one entity is the ship while the *other* is asteroid-tagged — yet
`handle_collisions` does change the state: the source's test
`(c.0 == ship || c.1 == ship) && (R.contains(c.1) || R.contains(c.0))` also
fires when the ship itself is the asteroid-tagged side, so a full scene
reset happens. -/
theorem C4_counterexample :
    shipIds W0 = [0] ∧
    ¬ ((0 : Nat) ∈ laserIds W0 ∧ (1 : Nat) ∈ asteroidIds W0) ∧
    ¬ ((1 : Nat) ∈ laserIds W0 ∧ (0 : Nat) ∈ asteroidIds W0) ∧
    ¬ (((0 : Nat) = 0 ∧ (1 : Nat) ∈ asteroidIds W0) ∨
       ((1 : Nat) = 0 ∧ (0 : Nat) ∈ asteroidIds W0)) ∧
    handle_collisions W0 [(0, 1)] ≠ W0 := by decide

/-- Claim C4, amended: the ship–asteroid rule's actual trigger, after the
projectile–asteroid rule fails, is "(one of the pair is the singular ship)
and (at least one of the pair is asteroid-tagged)" — which covers the
claimed one-is-ship/other-is-asteroid case but also fires when the ship
itself carries the asteroid tag.  When it fires, every cleanup-tagged
entity is despawned (not just the collided pair) and `setup_scene` re-runs,
appending a fresh camera and a fresh ship, so a ship entity exists
afterwards.  Pairs matching neither the projectile–asteroid rule nor this
trigger leave the world exactly unchanged. -/
theorem C4_ship_asteroid_reset :
    (∀ (w : World) (s a b : Nat), shipIds w = [s] →
      ¬ (a ∈ laserIds w ∧ b ∈ asteroidIds w) →
      ¬ (b ∈ laserIds w ∧ a ∈ asteroidIds w) →
      (a = s ∨ b = s) → (b ∈ asteroidIds w ∨ a ∈ asteroidIds w) →
      (handle_collisions w [(a, b)]).ents =
        w.ents.filter (fun e => !((cleanupIds w).contains e.id)) ++
          [⟨w.nextId, false, false, false, true, true⟩,
           ⟨w.nextId + 1, true, false, false, true, false⟩] ∧
      ∃ e ∈ (handle_collisions w [(a, b)]).ents, e.ship = true) ∧
    (∀ (w : World) (s a b : Nat), shipIds w = [s] →
      ¬ (a ∈ laserIds w ∧ b ∈ asteroidIds w) →
      ¬ (b ∈ laserIds w ∧ a ∈ asteroidIds w) →
      ¬ ((a = s ∨ b = s) ∧ (b ∈ asteroidIds w ∨ a ∈ asteroidIds w)) →
      handle_collisions w [(a, b)] = w) := by
  constructor
  · intro w s a b hs hn1 hn2 hss hrr
    have hred : handle_collisions w [(a, b)] = run_rules w s [(a, b)] := by
      simp only [handle_collisions, hs]
    have hno : ¬ ((a ∈ laserIds w ∧ b ∈ asteroidIds w) ∨
        (b ∈ laserIds w ∧ a ∈ asteroidIds w)) := by tauto
    have hone : handle_one (laserIds w) (asteroidIds w) (cleanupIds w) s (a, b) =
        ((cleanupIds w).map GameCmd.despawn ++ [GameCmd.runSetup], false) := by
      rw [handle_one_eval, if_neg hno, if_pos ⟨hss, hrr⟩]
    rw [hred, run_rules_single, hone]
    show (applyCmds { w with score := w.score }
        ((cleanupIds w).map GameCmd.despawn ++ [GameCmd.runSetup])).ents = _ ∧
      ∃ e ∈ (applyCmds { w with score := w.score }
        ((cleanupIds w).map GameCmd.despawn ++ [GameCmd.runSetup])).ents, e.ship = true
    rw [applyCmds_append, applyCmds_despawn_list]
    constructor
    · rfl
    · refine ⟨⟨w.nextId + 1, true, false, false, true, false⟩, ?_, rfl⟩
      show _ ∈ w.ents.filter (fun e => !((cleanupIds w).contains e.id)) ++
        [⟨w.nextId, false, false, false, true, true⟩,
         ⟨w.nextId + 1, true, false, false, true, false⟩]
      simp
  · intro w s a b hs hn1 hn2 hn3
    have hred : handle_collisions w [(a, b)] = run_rules w s [(a, b)] := by
      simp only [handle_collisions, hs]
    have hno : ¬ ((a ∈ laserIds w ∧ b ∈ asteroidIds w) ∨
        (b ∈ laserIds w ∧ a ∈ asteroidIds w)) := by tauto
    have hone : handle_one (laserIds w) (asteroidIds w) (cleanupIds w) s (a, b) =
        ([], false) := by
      rw [handle_one_eval, if_neg hno, if_neg hn3]
    rw [hred, run_rules_single, hone]
    show { w with score := w.score } = w
    rfl

/-- Witness for the amended C4: in `W1` the ship 0 collides with asteroid 2:
all three cleanup-tagged entities vanish and a fresh camera (id 3) and ship
(id 4) appear; a ship exists afterwards.  The unrelated pair `(0, 0)` in a
ship-only world leaves it unchanged. -/
theorem C4_ship_asteroid_reset_witness :
    ((handle_collisions W1 [(0, 2)]).ents =
      W1.ents.filter (fun e => !((cleanupIds W1).contains e.id)) ++
        [⟨W1.nextId, false, false, false, true, true⟩,
         ⟨W1.nextId + 1, true, false, false, true, false⟩] ∧
      ∃ e ∈ (handle_collisions W1 [(0, 2)]).ents, e.ship = true) ∧
    handle_collisions W0 [(1, 1)] = W0 :=
  ⟨C4_ship_asteroid_reset.1 W1 0 0 2 (by decide) (by decide) (by decide)
      (Or.inl rfl) (Or.inl (by decide)),
    C4_ship_asteroid_reset.2 W0 0 1 1 (by decide) (by decide) (by decide) (by decide)⟩

/-- Whether a collision pair matches the projectile–asteroid rule against
`w`'s query snapshots (the only rule that touches the score). -/
def laMatch (w : World) (c : Nat × Nat) : Bool :=
  decide ((c.1 ∈ laserIds w ∧ c.2 ∈ asteroidIds w) ∨
          (c.2 ∈ laserIds w ∧ c.1 ∈ asteroidIds w))

lemma handle_one_flag (w : World) (s : Nat) (c : Nat × Nat) :
    (handle_one (laserIds w) (asteroidIds w) (cleanupIds w) s c).2 = laMatch w c := by
  rcases c with ⟨a, b⟩
  rw [handle_one_eval]
  by_cases h : (a ∈ laserIds w ∧ b ∈ asteroidIds w) ∨ (b ∈ laserIds w ∧ a ∈ asteroidIds w)
  · rw [if_pos h]
    simp [laMatch, h]
  · rw [if_neg h]
    by_cases h2 : (a = s ∨ b = s) ∧ (b ∈ asteroidIds w ∨ a ∈ asteroidIds w)
    · rw [if_pos h2]
      simp [laMatch, h]
    · rw [if_neg h2]
      simp [laMatch, h]

lemma run_rules_fold_score (w : World) (s : Nat) (pairs : List (Nat × Nat)) :
    ∀ (cs : List GameCmd) (s0 : Nat), s0 < 2 ^ 32 →
      (pairs.foldl (fun acc c =>
        (acc.1 ++ (handle_one (laserIds w) (asteroidIds w) (cleanupIds w) s c).1,
         if (handle_one (laserIds w) (asteroidIds w) (cleanupIds w) s c).2
         then (acc.2 + 10) % 2 ^ 32 else acc.2)) (cs, s0)).2 =
      (s0 + 10 * pairs.countP (laMatch w)) % 2 ^ 32 := by
  induction pairs with
  | nil =>
    intro cs s0 h0
    simp only [List.foldl_nil, List.countP_nil, Nat.mul_zero, Nat.add_zero]
    exact (Nat.mod_eq_of_lt h0).symm
  | cons c rest ih =>
    intro cs s0 h0
    rw [List.foldl_cons, List.countP_cons, handle_one_flag]
    by_cases h : laMatch w c = true
    · rw [if_pos h, if_pos h]
      have hlt : (s0 + 10) % 2 ^ 32 < 2 ^ 32 := Nat.mod_lt _ (by norm_num)
      rw [ih _ _ hlt, Nat.mod_add_mod]
      congr 1
      ring
    · rw [if_neg h, if_neg h, ih _ _ h0, Nat.add_zero]

lemma run_rules_score (w : World) (s : Nat) (pairs : List (Nat × Nat))
    (hrep : w.score < 2 ^ 32) :
    (run_rules w s pairs).score = (w.score + 10 * pairs.countP (laMatch w)) % 2 ^ 32 := by
  simp only [run_rules]
  rw [applyCmds_score]
  exact run_rules_fold_score w s pairs [] w.score hrep

/-- A world six points below the `u32` wrap point: ship 0, laser 1,
asteroid 2, score `2^32 − 6 = 4294967290` (a multiple of 10, as every score
built from `+10` increments is). -/
def Wbig : World :=
  ⟨[⟨0, true, false, false, true, false⟩,
    ⟨1, false, false, true, true, false⟩,
    ⟨2, false, true, false, true, false⟩], 4294967290, 3⟩

/-- Claim C10, counterexample: the score register is a `u32`, so its
`+= 10` wraps.  In `Wbig` (score `2^32 − 6`) a single projectile–asteroid
pair drops the score to 4 — applying the collision rules *can* decrease the
score, refuting the claim's "never decreases" as stated. -/
theorem C10_counterexample :
    shipIds Wbig = [0] ∧
    Wbig.score < 2 ^ 32 ∧
    (1 : Nat) ∈ laserIds Wbig ∧ (2 : Nat) ∈ asteroidIds Wbig ∧
    (handle_collisions Wbig [(1, 2)]).score < Wbig.score := by decide

/-- Claim C10, amended: across any batch of collision pairs the score
changes only by the `u32` addition of exactly 10 per projectile–asteroid
pair — the new register value is `(old + 10·count) mod 2^32` — and in
particular ship–asteroid scene resets contribute nothing: a batch with no
projectile–asteroid pair leaves the score exactly unchanged, so the score
persists across resets rather than being reset to zero.  As long as the
accumulated increments do not overflow the `u32`
(`old + 10·count < 2^32`), the score is exactly `old + 10·count` and never
decreases; at the wrap point it does decrease (see the counterexample). -/
theorem C10_score_only_increments (w : World) (s : Nat) (pairs : List (Nat × Nat))
    (hs : shipIds w = [s]) (hrep : w.score < 2 ^ 32) :
    (handle_collisions w pairs).score =
      (w.score + 10 * pairs.countP (laMatch w)) % 2 ^ 32 ∧
    (pairs.countP (laMatch w) = 0 → (handle_collisions w pairs).score = w.score) ∧
    (w.score + 10 * pairs.countP (laMatch w) < 2 ^ 32 →
      (handle_collisions w pairs).score = w.score + 10 * pairs.countP (laMatch w) ∧
      w.score ≤ (handle_collisions w pairs).score) := by
  have hred : handle_collisions w pairs = run_rules w s pairs := by
    simp only [handle_collisions, hs]
  rw [hred, run_rules_score w s pairs hrep]
  refine ⟨rfl, ?_, ?_⟩
  · intro hzero
    rw [hzero, Nat.mul_zero, Nat.add_zero]
    exact Nat.mod_eq_of_lt hrep
  · intro hlt
    rw [Nat.mod_eq_of_lt hlt]
    exact ⟨rfl, Nat.le_add_right _ _⟩

/-- Witness for the amended C10 on `W1` (score 7) with one scoring pair, one
reset pair and one junk pair: the register follows the wrapping formula, and
since no overflow occurs the score is exactly 7 + 10 and did not decrease. -/
theorem C10_score_only_increments_witness :
    shipIds W1 = [0] ∧ W1.score < 2 ^ 32 ∧
    (handle_collisions W1 [(1, 2), (0, 2), (5, 6)]).score =
      (W1.score + 10 * ([(1, 2), (0, 2), (5, 6)] : List (Nat × Nat)).countP (laMatch W1))
        % 2 ^ 32 ∧
    (handle_collisions W1 [(1, 2), (0, 2), (5, 6)]).score =
      W1.score + 10 * ([(1, 2), (0, 2), (5, 6)] : List (Nat × Nat)).countP (laMatch W1) ∧
    W1.score ≤ (handle_collisions W1 [(1, 2), (0, 2), (5, 6)]).score :=
  ⟨by decide, by decide,
    (C10_score_only_increments W1 0 [(1, 2), (0, 2), (5, 6)] (by decide) (by decide)).1,
    ((C10_score_only_increments W1 0 [(1, 2), (0, 2), (5, 6)] (by decide) (by decide)).2.2
      (by decide)).1,
    ((C10_score_only_increments W1 0 [(1, 2), (0, 2), (5, 6)] (by decide) (by decide)).2.2
      (by decide)).2⟩

/-- `game_tick` (`src/main.rs` lines 88-109), reduced to how many asteroid
spawns it requests in one run: when the repeating `roid_timer` just
finished, a uniform roll `random_range(0..100)` is compared against
`roid_chance` (an `i8`, default 10) and `spawn_asteroid` runs exactly once
when `roll < roid_chance`; otherwise nothing is spawned.  The randomized
spawn parameters are irrelevant to the count and are elided. -/
def game_tick_spawns (timer_finished : Bool) (roll roid_chance : ℤ) : Nat :=
  if timer_finished then (if roll < roid_chance then 1 else 0) else 0

/-- Claim C7: on each firing of the asteroid timer with a roll in `[0,100)`,
exactly one asteroid is spawned precisely when the roll is below the
configured chance; with the threshold at 100 every firing spawns exactly
one, with the threshold at 0 none ever does, and a tick without a timer
firing spawns none. -/
theorem C7_spawn_chance_threshold (roll chance : ℤ) (h0 : 0 ≤ roll) (h1 : roll < 100) :
    (game_tick_spawns true roll chance = 1 ↔ roll < chance) ∧
    game_tick_spawns true roll 100 = 1 ∧
    game_tick_spawns true roll 0 = 0 ∧
    game_tick_spawns false roll chance = 0 := by
  refine ⟨?_, ?_, ?_, rfl⟩
  · show (if roll < chance then 1 else 0) = 1 ↔ roll < chance
    split_ifs with h
    · simp [h]
    · simp [h]
  · show (if roll < (100 : ℤ) then 1 else 0) = 1
    rw [if_pos h1]
  · show (if roll < (0 : ℤ) then 1 else 0) = 0
    rw [if_neg (not_lt.mpr h0)]

/-- Witness for C7 at the roll 5. -/
theorem C7_spawn_chance_threshold_witness :
    (0 : ℤ) ≤ 5 ∧ (5 : ℤ) < 100 ∧ game_tick_spawns true 5 10 = 1 ∧
    game_tick_spawns true 5 100 = 1 ∧ game_tick_spawns true 5 0 = 0 :=
  ⟨by decide, by decide,
    (C7_spawn_chance_threshold 5 10 (by decide) (by decide)).1.mpr (by decide),
    (C7_spawn_chance_threshold 5 10 (by decide) (by decide)).2.1,
    (C7_spawn_chance_threshold 5 10 (by decide) (by decide)).2.2.1⟩

/-- `load_assets` (`src/main.rs` lines 56-69): the four meteor images pushed
into `GameAssets.meteors`, in order. -/
def load_assets_meteors : List String :=
  ["meteorGrey_big1.png", "meteorGrey_big2.png",
   "meteorGrey_big3.png", "meteorGrey_big4.png"]

/-- `spawn_asteroid` (`src/main.rs` lines 263-279): the sprite is
`assets.meteors[asteroid_variant]` where
`asteroid_variant = rng.random_range(0..3)` — a uniform roll over
`{0, 1, 2}` only. -/
def spawn_asteroid_sprite (roll : Nat) : Option String :=
  load_assets_meteors.get? roll

/-- Claim C8's failure in the code: four meteor graphics are loaded, but the
variant roll ranges over `0..3` (exclusive), so `meteorGrey_big4.png` is
loaded yet can never be chosen — the choice is uniform over the first three
only, not over all loaded graphics. -/
theorem C8_fourth_meteor_unreachable (roll : Nat) (h : roll < 3) :
    spawn_asteroid_sprite roll ≠ some "meteorGrey_big4.png" ∧
    "meteorGrey_big4.png" ∈ load_assets_meteors ∧
    load_assets_meteors.length = 4 := by
  refine ⟨?_, by decide, by decide⟩
  interval_cases roll <;> decide

/-- Witness for C8 at roll 0. -/
theorem C8_fourth_meteor_unreachable_witness :
    (0 : Nat) < 3 ∧ spawn_asteroid_sprite 0 ≠ some "meteorGrey_big4.png" :=
  ⟨by decide, (C8_fourth_meteor_unreachable 0 (by decide)).1⟩

/-- The full output of `detect_collisions` on a two-entity world. -/
lemma detect_pair_eq (A B : PhysEntity) (hne : A.id ≠ B.id) :
    detect_collisions [A, B] =
      if hit A B then [(A.id, B.id)] else if hit B A then [(B.id, A.id)] else [] := by
  have hBA : ¬ B.id = A.id := fun h => hne h.symm
  rcases Bool.eq_false_or_eq_true (hit A B) with hAB | hAB <;>
    rcases Bool.eq_false_or_eq_true (hit B A) with hBA2 | hBA2 <;>
      simp [detect_collisions, outerLoop, innerLoop, mapInsertEmpty, mapLookup, mapPush,
        dedupHit, collisionEvents, hne, hBA, hAB, hBA2]

/-- Claim C9, counterexample: nothing asserts against or rejects a negative
radius or a negative `dt` at the boundary.  A collider with radius −1,
coincident with another entity, is accepted by `detect_collisions`, which
returns the ordinary result `[(1, 0)]` (the negative-radius side simply
scores no hit); and `apply_velocity` accepts `dt = −1` and integrates
backward with the same formula, rather than rejecting it. -/
theorem C9_counterexample :
    (⟨0, (0, 0), -1⟩ : PhysEntity).radius < 0 ∧
    detect_collisions [⟨0, (0, 0), -1⟩, ⟨1, (0, 0), 5⟩] = [(1, 0)] ∧
    apply_velocity ⟨(0, 0), 0, (2, 0), (0, 0), 1, 0⟩ (-1) =
      ⟨(-2, 0), -1, (2, 0), (0, 0), 1, 0⟩ := by
  refine ⟨by norm_num, ?_, ?_⟩
  · rw [detect_pair_eq _ _ (by decide)]
    have hf : hit ⟨0, (0, 0), -1⟩ (⟨1, (0, 0), 5⟩ : PhysEntity) = false := by
      have hneg : ¬ (0 : ℚ) < (-1 : ℚ) := by norm_num
      simp [hit, hneg]
    have ht : hit ⟨1, (0, 0), 5⟩ (⟨0, (0, 0), -1⟩ : PhysEntity) = true := by
      simp only [hit, Bool.and_eq_true, decide_eq_true_eq]
      norm_num [sqDist]
    rw [hf, ht]
    rfl
  · simp only [apply_velocity]
    norm_num

/-- Claim C9, amended: the core performs no boundary validation at all.
Negative radii and negative `dt` are accepted: an entity whose collider
radius is not positive simply never registers a hit from its own
perspective (in a world with distinct entity ids), and `apply_velocity`
applies the very same arithmetic for every `dt`, negative included. -/
theorem C9_negative_inputs_accepted :
    (∀ (ents : List PhysEntity) (a : PhysEntity) (y : Nat),
      (ents.map PhysEntity.id).Nodup → a ∈ ents → a.radius ≤ 0 →
      (a.id, y) ∉ detect_collisions ents) ∧
    (∀ (b : Body) (dt : ℚ), apply_velocity b dt =
      { pos := (b.pos.1 + b.linear.1 * (1 - b.linear_drag.1 * dt) * dt,
                b.pos.2 + b.linear.2 * (1 - b.linear_drag.2 * dt) * dt)
        rot := b.rot + b.angular * (1 - b.angular_drag * dt) * dt
        linear := (b.linear.1 * (1 - b.linear_drag.1 * dt),
                   b.linear.2 * (1 - b.linear_drag.2 * dt))
        linear_drag := b.linear_drag
        angular := b.angular * (1 - b.angular_drag * dt)
        angular_drag := b.angular_drag }) := by
  constructor
  · intro ents a y hnd ha hr hmem
    rcases detect_collisions_sound hmem with ⟨a', b', ha', hb', hid, hidb, hne, hhit⟩
    have haa : a' = a := List.inj_on_of_nodup_map hnd ha' ha (by rw [hid])
    have hpos : 0 < a'.radius := by
      simp only [hit, Bool.and_eq_true, decide_eq_true_eq] at hhit
      exact hhit.1
    rw [haa] at hpos
    exact absurd hpos (not_lt.mpr hr)
  · intro b dt
    rfl

/-- Witness for the amended C9: the radius −1 entity of the counterexample
world registers no hit on the coincident entity 1. -/
theorem C9_negative_inputs_accepted_witness :
    (([⟨0, (0, 0), -1⟩, ⟨1, (0, 0), 5⟩] : List PhysEntity).map PhysEntity.id).Nodup ∧
    (⟨0, (0, 0), -1⟩ : PhysEntity).radius ≤ 0 ∧
    ((0 : Nat), (1 : Nat)) ∉ detect_collisions [⟨0, (0, 0), -1⟩, ⟨1, (0, 0), 5⟩] :=
  ⟨by decide, by norm_num,
    C9_negative_inputs_accepted.1 [⟨0, (0, 0), -1⟩, ⟨1, (0, 0), 5⟩] ⟨0, (0, 0), -1⟩ 1
      (by decide) (by decide) (by norm_num)⟩
